import Mathlib

/-!
Verification development for the `cpp_log` logging library.

This file gives a shallow embedding of the parts of the library that the
properties below are about:

* `Level`, `get_level_string` (level.hpp)
* ANSI color constants and `color.strip_color_codes` (color.hpp)
* `LogContext`, `DefaultFormatter.format`, `PatternFormatter.format`
  (formatter.hpp)
* `LogSink.should_log`, `RotatingFileSink` with its `write`, `rotate_files`,
  `generate_rotated_filename` and `cleanup_old_files` (sink.hpp)
* `Logger.add_sink` / `Logger.get_sink` (log.hpp)

Byte strings are modelled as `List Char` (the formatted output is ASCII
text plus ESC bytes, so byte length = character count).  The file system is
modelled as an association list from path to (contents, last-write-time);
all files of interest live in one directory, so a path is its file name.
Wall-clock instants are abstract `Nat` ticks; environment-dependent
renderings (the `std::format` timestamp string, the `std::thread::id`
string, the `localtime`/`mktime` arithmetic of
`calculate_next_rotation_time`, the `put_time` suffix of time-based rotated
names) are supplied as oracle data, since no claim depends on their value.
Exceptions (`throw std::runtime_error`) are modelled with `Except String`.
-/

namespace CppLog

/-! ### level.hpp -/

/-- Embedding of `enum class Level { Debug, Info, Warning, Error, Fatal }`. -/
inductive Level where
  | Debug
  | Info
  | Warning
  | Error
  | Fatal
deriving DecidableEq, Repr

/-- The underlying integer of the `enum class` constant, as used by
`static_cast<int>` in `LogSink::should_log`. -/
def Level.toNat : Level → Nat
  | .Debug => 0
  | .Info => 1
  | .Warning => 2
  | .Error => 3
  | .Fatal => 4

/-- Embedding of `get_level_string` from level.hpp. -/
def get_level_string : Level → List Char
  | .Debug => "DEBUG".data
  | .Info => "INFO".data
  | .Warning => "WARN".data
  | .Error => "ERROR".data
  | .Fatal => "FATAL".data

/-! ### color.hpp -/

namespace color

def reset : List Char := "\x1b[0m".data
def red : List Char := "\x1b[31m".data
def green : List Char := "\x1b[32m".data
def yellow : List Char := "\x1b[33m".data
def blue : List Char := "\x1b[34m".data
def magenta : List Char := "\x1b[35m".data
def cyan : List Char := "\x1b[36m".data
def bold_red : List Char := "\x1b[1;31m".data

/-- A character matched by the regex character class `[0-9;]`. -/
def is_color_param (c : Char) : Bool := c.isDigit || c = ';'

/-- Embedding of `color::strip_color_codes`: `std::regex_replace` of the pattern
`"\033\[[0-9;]*m"` by the empty string.  The replacement scans left to
right; at each position a match is the ESC byte, `'['`, a maximal run of
`[0-9;]`, then `'m'` (maximality is harmless because `'m'` is outside the
class), and matched bytes are dropped. -/
def strip_go (fuel : Nat) (l : List Char) : List Char :=
  match fuel, l with
  | 0, l => l
  | _ + 1, [] => []
  | fuel + 1, c :: rest =>
    if c = '\x1b' then
      match rest with
      | '[' :: rest2 =>
        match rest2.dropWhile is_color_param with
        | 'm' :: rest3 => strip_go fuel rest3
        | _ => c :: strip_go fuel ('[' :: rest2)
      | r => c :: strip_go fuel r
    else c :: strip_go fuel rest

/-- The scan itself.  Every step of `strip_go` shortens the list by at
least one character while spending exactly one unit of fuel, so
`l.length` units never run out and the fuel is only a structural
termination device. -/
def strip_color_codes (l : List Char) : List Char := strip_go l.length l

end color

/-- Embedding of `get_level_color` from color.hpp. -/
def get_level_color : Level → List Char
  | .Debug => color.green
  | .Info => color.reset
  | .Warning => color.yellow
  | .Error => color.red
  | .Fatal => color.bold_red

/-! ### formatter.hpp -/

/-- Embedding of `struct LogContext`.  `time_str` is the already-rendered
`std::format("{:%Y-%m-%d %H:%M:%S}", timestamp)` string and `thread_str`
the rendered `std::thread::id`, both environment-dependent renderings the
formatters consume verbatim. -/
structure LogContext where
  level : Level
  time_str : List Char
  file_name : List Char
  line : Nat
  thread_str : List Char
  message : List Char

/-- Embedding of `DefaultFormatter::format`: the literal expansion of the
`std::format` call in formatter.hpp, argument by argument against the
template `"{}{}{} {}[{}]{} {}{}<{}:{}>{}{}(Thread {}){}{}{}{}"`. -/
def DefaultFormatter.format (ctx : LogContext) : List Char :=
  color.cyan ++ ctx.time_str ++ color.reset
    ++ [' '] ++ get_level_color ctx.level ++ ['['] ++ get_level_string ctx.level
    ++ [']'] ++ color.reset ++ [' '] ++ color.blue ++ ctx.file_name
    ++ ['<'] ++ (toString ctx.line).data ++ [':'] ++ color.reset ++ ['>']
    ++ color.magenta ++ ctx.thread_str ++ "(Thread ".data ++ color.reset
    ++ [')'] ++ get_level_color ctx.level ++ ctx.message ++ color.reset
    ++ ['\n']

/-- The replacement text `PatternFormatter::format` substitutes for a
recognized specifier character, `none` for the `default:` branch. -/
def placeholder_replacement (ctx : LogContext) : Char → Option (List Char)
  | 't' => some ctx.time_str
  | 'l' => some (get_level_string ctx.level)
  | 'f' => some ctx.file_name
  | 'n' => some (toString ctx.line).data
  | 'd' => some ctx.thread_str
  | 'm' => some ctx.message
  | '%' => some ['%']
  | _ => none

/-- The substitution loop of `PatternFormatter::format`.  The loop finds
the next `'%'`; a lone trailing `'%'` stops the loop (`break`); a
recognized specifier is replaced by its replacement and scanning resumes
after the inserted text (`pos += replacement.length()`); an unrecognized
specifier leaves both characters and resumes at the specifier
(`pos++; continue`). -/
def pattern_subst (ctx : LogContext) : List Char → List Char
  | [] => []
  | c :: rest =>
    if c = '%' then
      match rest with
      | [] => [c]
      | c2 :: rest2 =>
        match placeholder_replacement ctx c2 with
        | some repl => repl ++ pattern_subst ctx rest2
        | none => c :: pattern_subst ctx (c2 :: rest2)
    else c :: pattern_subst ctx rest

/-- Embedding of `PatternFormatter::format`: run the substitution loop on the pattern,
then `result += '\n'`. -/
def PatternFormatter.format (pattern : List Char) (ctx : LogContext) : List Char :=
  pattern_subst ctx pattern ++ ['\n']

/-! ### sink.hpp: file-system model

All files of interest live in the parent directory of `base_filename_`, so
a path is its file name.  `mtime` is the `last_write_time` tick used by
`cleanup_old_files`; appends and truncations stamp the current tick,
`std::filesystem::rename` preserves it. -/

structure FileEnt where
  path : String
  content : List Char
  mtime : Nat
deriving DecidableEq, Repr

/-- The directory: an association list of regular files. -/
abbrev FS := List FileEnt

def fs_lookup (fs : FS) (p : String) : Option (List Char) :=
  (fs.find? (fun e => e.path = p)).map (·.content)

def fs_exists (fs : FS) (p : String) : Bool :=
  (fs.find? (fun e => e.path = p)).isSome

def fs_erase (fs : FS) (p : String) : FS :=
  fs.filter (fun e => ¬ e.path = p)

/-- Create or replace the file at `p` with `content`, stamped `mtime`. -/
def fs_set (fs : FS) (p : String) (content : List Char) (mtime : Nat) : FS :=
  fs_erase fs p ++ [⟨p, content, mtime⟩]

/-- Embedding of `file_ << bytes` on a handle opened on `p` (the file exists while the
handle is open): append and stamp the write time. -/
def fs_append (fs : FS) (p : String) (bytes : List Char) (now : Nat) : FS :=
  match fs_lookup fs p with
  | some old => fs_set fs p (old ++ bytes) now
  | none => fs_set fs p bytes now

/-- Embedding of `std::filesystem::rename(src, dst)`: move the file, replacing any
existing `dst`, keeping its last-write time.  Only called when `src`
exists. -/
def fs_rename (fs : FS) (src dst : String) : FS :=
  match fs.find? (fun e => e.path = src) with
  | some e => fs_set (fs_erase fs src) dst e.content e.mtime
  | none => fs

/-! ### sink.hpp: LogSink and RotatingFileSink -/

/-- Embedding of `LogSink::should_log`: `static_cast<int>(msg_level) >=
static_cast<int>(level_)`. -/
def should_log (msg_level level_ : Level) : Bool :=
  level_.toNat ≤ msg_level.toNat

/-- Embedding of `enum class RotationStrategy { Size, Daily, Hourly }`. -/
inductive RotationStrategy where
  | Size
  | Daily
  | Hourly
deriving DecidableEq, Repr

/-- The mutable state of a `RotatingFileSink` (its `LogSink` base's
`level_` and `formatter_` included).  `formatter_` is the
`LogFormatter::format` function of the installed formatter. -/
structure RSink where
  level_ : Level
  formatter_ : LogContext → List Char
  base_filename_ : String
  max_size_ : Nat
  max_files_ : Nat
  current_size_ : Nat
  strategy_ : RotationStrategy
  next_rotation_time_ : Nat

/-- Embedding of `std::filesystem::path::stem()` for an ordinary file name: the name
up to (not including) the last `'.'`, the whole name if it has none.
(The `"."`/`".."`/leading-dot special cases do not arise here.) -/
def path_stem (name : String) : String :=
  let chars := name.data
  if (chars.dropWhile (fun c => ¬ c = '.')).isEmpty then name
  else ⟨(chars.reverse.dropWhile (fun c => ¬ c = '.')).tail.reverse⟩

/-- Embedding of `RotatingFileSink::generate_rotated_filename`.  `time_suffix` is the
oracle for `put_time(&tm_now, "%Y%m%d-%H%M%S")`, used only by the
time-based strategies; the size-based strategy always emits the literal
suffix `"1"`. -/
def generate_rotated_filename (s : RSink) (time_suffix : String) : String :=
  if s.strategy_ = RotationStrategy.Size then
    s.base_filename_ ++ "." ++ "1"
  else
    s.base_filename_ ++ "." ++ time_suffix

/-- The test `filename.find(stem) == 0`: the name starts with `stem`. -/
def starts_with (stem name : String) : Bool :=
  name.data.take stem.data.length = stem.data

/-- The candidate filter of `RotatingFileSink::cleanup_old_files`:
`filename.find(base_stem) == 0` and the name differs from the base file's
name. -/
def cleanup_candidate (stem baseName : String) (e : FileEnt) : Bool :=
  starts_with stem e.path && ¬ e.path = baseName

/-- Insert into a list sorted most-recent-first, matching the comparator
`last_write_time(a) > last_write_time(b)` of the `std::sort` call. -/
def insert_desc (e : FileEnt) : List FileEnt → List FileEnt
  | [] => [e]
  | x :: xs => if x.mtime ≤ e.mtime then e :: x :: xs else x :: insert_desc e xs

/-- Sort most-recent-first (the library's `std::sort` with the
`last_write_time` comparator; tie order is unspecified there, insertion
sort fixes one). -/
def sort_desc : List FileEnt → List FileEnt
  | [] => []
  | x :: xs => insert_desc x (sort_desc xs)

/-- The deletion loop `while (log_files.size() >= max_files_) { remove
back; pop_back; }`, on the sorted candidate vector; returns the files the
loop keeps.  Fuel makes the recursion total: with `max_files ≥ 1` the
loop stops on its own before `files.length + 1` steps (with
`max_files = 0` the C++ loop runs `back()` on an empty vector, which is
undefined). -/
def cleanup_loop (max_files : Nat) : Nat → List FileEnt → List FileEnt
  | 0, files => files
  | fuel + 1, files =>
    if max_files ≤ files.length then cleanup_loop max_files fuel files.dropLast
    else files

/-- Embedding of `RotatingFileSink::cleanup_old_files`: collect the candidates, sort
them most-recent-first, run the deletion loop; the files the loop removed
are deleted from the directory (by path, as `std::filesystem::remove`
does). -/
def cleanup_old_files (fs : FS) (baseName : String) (max_files : Nat) : FS :=
  let cands := fs.filter (cleanup_candidate (path_stem baseName) baseName)
  let sorted := sort_desc cands
  let kept := cleanup_loop max_files (sorted.length + 1) sorted
  let removed := sorted.drop kept.length
  fs.filter (fun e => ¬ (removed.map (·.path)).contains e.path)

/-- Embedding of `RotatingFileSink::rotate_files`.  `now` stamps the truncated fresh
file; `time_suffix` is the `put_time` oracle; `can_open` is whether the
reopen of `base_filename_` succeeds (`file_.is_open()` after
`file_.open`), `false` modelling the environment refusing the open, in
which case the function throws. -/
def rotate_files (s : RSink) (fs : FS) (now : Nat) (time_suffix : String)
    (can_open : Bool) : Except String FS :=
  let rotated_name := generate_rotated_filename s time_suffix
  let fs1 := if fs_exists fs s.base_filename_ then
    fs_rename fs s.base_filename_ rotated_name else fs
  let fs2 := cleanup_old_files fs1 s.base_filename_ s.max_files_
  if can_open then Except.ok (fs_set fs2 s.base_filename_ [] now)
  else Except.error ("Failed to open new log file after rotation: " ++ s.base_filename_)

/-- The rotation decision of `RotatingFileSink::write` (the `switch` on
`strategy_`). -/
def should_rotate_now (s : RSink) (msg_size now : Nat) : Bool :=
  match s.strategy_ with
  | RotationStrategy.Size => s.max_size_ < s.current_size_ + msg_size
  | RotationStrategy.Daily => s.next_rotation_time_ ≤ now
  | RotationStrategy.Hourly => s.next_rotation_time_ ≤ now

/-- Embedding of `RotatingFileSink::write`.  `next_time` is the oracle for
`calculate_next_rotation_time()` at `now` (its `localtime`/`mktime`
arithmetic is environment-dependent); it is installed only by the
time-based strategies after a rotation, exactly as in the source. -/
def RSink.write (s : RSink) (fs : FS) (ctx : LogContext) (now : Nat)
    (time_suffix : String) (can_open : Bool) (next_time : Nat) :
    Except String (RSink × FS) :=
  if should_log ctx.level s.level_ then
    let formatted := s.formatter_ ctx
    let msg_size := formatted.length
    if should_rotate_now s msg_size now then
      match rotate_files s fs now time_suffix can_open with
      | Except.error e => Except.error e
      | Except.ok fs2 =>
        let s2 : RSink :=
          { s with
            current_size_ := 0
            next_rotation_time_ :=
              if s.strategy_ = RotationStrategy.Size then s.next_rotation_time_
              else next_time }
        Except.ok ({ s2 with current_size_ := s2.current_size_ + msg_size },
          fs_append fs2 s.base_filename_ formatted now)
    else
      Except.ok ({ s with current_size_ := s.current_size_ + msg_size },
        fs_append fs s.base_filename_ formatted now)
  else
    Except.ok (s, fs)

/-! ### log.hpp: Logger registry -/

/-- The `Logger`'s sink registry (`sinks_`) and global level
(`min_level_`); the sink elements are abstract (`shared_ptr<LogSink>`
values). -/
structure LoggerState (α : Type) where
  sinks_ : List α
  min_level_ : Level

/-- Embedding of `Logger::add_sink`: `push_back` then return `sinks_.size() - 1`. -/
def add_sink {α : Type} (lg : LoggerState α) (s : α) : LoggerState α × Nat :=
  let lg2 : LoggerState α := { lg with sinks_ := lg.sinks_ ++ [s] }
  (lg2, lg2.sinks_.length - 1)

/-- Embedding of `Logger::get_sink`: the sink at `index` when `index < sinks_.size()`,
otherwise `nullptr` (here `none`), with no exception. -/
def get_sink {α : Type} (lg : LoggerState α) (index : Nat) : Option α :=
  if h : index < lg.sinks_.length then some (lg.sinks_.get ⟨index, h⟩)
  else none

/-! ### Observers on write results, used to state concrete scenarios -/

/-- The contents of file `p` after a (successful) pipeline result. -/
def result_file (r : Except String (RSink × FS)) (p : String) : Option (List Char) :=
  match r with
  | Except.ok (_, fs) => fs_lookup fs p
  | Except.error _ => none

/-- The sink's `current_size_` after a (successful) pipeline result. -/
def result_size (r : Except String (RSink × FS)) : Option Nat :=
  match r with
  | Except.ok (s, _) => some s.current_size_
  | Except.error _ => none

/-- Chain one more `write` onto a pipeline result, as the logger's
sequential calls do. -/
def chain_write (r : Except String (RSink × FS)) (ctx : LogContext) (now : Nat)
    (time_suffix : String) (can_open : Bool) (next_time : Nat) :
    Except String (RSink × FS) :=
  match r with
  | Except.ok (s, fs) => s.write fs ctx now time_suffix can_open next_time
  | Except.error e => Except.error e

/-- Embedding of the size-based `RotatingFileSink` constructor: the
`FileSink` base opens `base` in append mode (creating it empty if
missing), then `current_size_ = std::filesystem::file_size(filename)`;
`level_` defaults to `Debug`, the strategy is `Size` and
`next_rotation_time_` is initialised to `now`. -/
def mk_size_sink (fmt : LogContext → List Char) (base : String)
    (max_size max_files : Nat) (fs : FS) (now : Nat) : RSink × FS :=
  let fs1 := if fs_exists fs base then fs else fs_set fs base [] now
  let sz := ((fs_lookup fs1 base).getD []).length
  (⟨Level.Debug, fmt, base, max_size, max_files, sz, RotationStrategy.Size, now⟩, fs1)

/-! ### Concrete fixtures for scenario theorems and witnesses -/

/-- A concrete record with the given level and message (renderings of the
timestamp and thread id fixed arbitrarily). -/
def demo_ctx (lvl : Level) (m : String) : LogContext :=
  ⟨lvl, "2024-01-01 00:00:00".data, "main.cpp".data, 42, "140123".data, m.data⟩

/-- A size-rotating sink on `app.log` with a `PatternFormatter("%m")`
installed (formatted output = message plus the appended newline). -/
def app_sink (max_size : Nat) : RSink :=
  (mk_size_sink (PatternFormatter.format "%m".data) "app.log" max_size 5 [] 0).1

/-- The directory produced by constructing that sink in an empty
directory: just the empty active file. -/
def app_fs : FS := (mk_size_sink (PatternFormatter.format "%m".data) "app.log" 50 5 [] 0).2

/-- The sink extracted from a successful pipeline result. -/
def res_sink (r : Except String (RSink × FS)) (dflt : RSink) : RSink :=
  match r with
  | Except.ok (s, _) => s
  | Except.error _ => dflt

/-- The directory extracted from a successful pipeline result. -/
def res_fs (r : Except String (RSink × FS)) : FS :=
  match r with
  | Except.ok (_, fs) => fs
  | Except.error _ => []

/-- One step of the C4 end-to-end scenario: a write of message `m` at
tick `t` against the 50-byte-limit `app.log` sink. -/
def c4_write (r : Except String (RSink × FS)) (m : String) (t : Nat) :
    Except String (RSink × FS) :=
  chain_write r (demo_ctx Level.Info m) t "TS" true 0

/-- The C4 scenario after the first four 12-byte writes. -/
def c4_after4 : Except String (RSink × FS) :=
  c4_write (c4_write (c4_write (c4_write (Except.ok (app_sink 50, app_fs))
    "hello wrld1" 1) "hello wrld2" 2) "hello wrld3" 3) "hello wrld4" 4

/-- The C4 scenario after all five writes. -/
def c4_after5 : Except String (RSink × FS) := c4_write c4_after4 "hello wrld5" 5

/-- One step of the C7 scenario: a write against the 10-byte-limit
`app.log` sink; each message formats to 8 bytes, so the second and third
writes both trigger a rotation. -/
def c7_write (r : Except String (RSink × FS)) (m : String) (t : Nat) :
    Except String (RSink × FS) :=
  chain_write r (demo_ctx Level.Info m) t "TS" true 0

/-- The C7 scenario after two writes (one rotation so far). -/
def c7_after2 : Except String (RSink × FS) :=
  c7_write (c7_write (Except.ok (app_sink 10, app_fs)) "msg-one" 1) "msg-two" 2

/-- The C7 scenario after three writes (a second rotation). -/
def c7_after3 : Except String (RSink × FS) := c7_write c7_after2 "msg-tri" 3

/-- A rotating sink on `color.log` left with its default formatter (the
`FileSink` base installs `DefaultFormatter`, which emits ANSI color). -/
def color_sink : RSink := (mk_size_sink DefaultFormatter.format "color.log" 1000 5 [] 0).1

/-- The directory produced by constructing `color_sink` in an empty
directory. -/
def color_fs : FS := (mk_size_sink DefaultFormatter.format "color.log" 1000 5 [] 0).2

/-- The record of the C1 counterexample and its formatted bytes. -/
def c1_ctx : LogContext := demo_ctx Level.Error "boom"

def c1_fmt : List Char := DefaultFormatter.format c1_ctx

/-- A second default-formatter sink, on `file.log`, for the C5
counterexample. -/
def file_sink : RSink := (mk_size_sink DefaultFormatter.format "file.log" 500 5 [] 0).1

def file_fs : FS := (mk_size_sink DefaultFormatter.format "file.log" 500 5 [] 0).2

def c5_ctx : LogContext := demo_ctx Level.Warning "yellow"

def c5_fmt : List Char := DefaultFormatter.format c5_ctx

/-- The C5 witness run: one accepted, non-rotating write on the freshly
constructed `file.log` sink. -/
def c5_res : Except String (RSink × FS) :=
  RSink.write file_sink file_fs c5_ctx 1 "TS" true 0

/-- A concrete directory for the retention witness: the base file, three
backups of various ages and one unrelated file. -/
def demo_dir : FS :=
  [⟨"app.log", "current".data, 9⟩,
   ⟨"app.log.1", "newest backup".data, 7⟩,
   ⟨"app.log.2", "older backup".data, 4⟩,
   ⟨"app.log.3", "oldest backup".data, 2⟩,
   ⟨"other.txt", "unrelated".data, 8⟩]

/-! ### Helper lemmas on the file-system model -/

theorem find_fs_erase (fs : FS) (p : String) :
    (fs_erase fs p).find? (fun e => e.path = p) = none := by
  simp only [fs_erase, List.find?_eq_none]
  intro e he
  simp only [List.mem_filter] at he
  simpa using he.2

theorem fs_lookup_set (fs : FS) (p : String) (c : List Char) (t : Nat) :
    fs_lookup (fs_set fs p c t) p = some c := by
  simp [fs_lookup, fs_set, List.find?_append, find_fs_erase]

theorem find_fs_erase_ne (fs : FS) (p q : String) (h : ¬ q = p) :
    (fs_erase fs p).find? (fun e => e.path = q) = fs.find? (fun e => e.path = q) := by
  induction fs with
  | nil => rfl
  | cons e fs ih =>
    simp only [fs_erase, List.filter_cons]
    by_cases hep : e.path = p
    · have heq : ¬ e.path = q := fun hc => h (hc.symm.trans hep)
      rw [if_neg (by simp [hep]), List.find?_cons_of_neg _ (by simp [heq])]
      exact ih
    · rw [if_pos (by simp [hep])]
      by_cases heq : e.path = q
      · rw [List.find?_cons_of_pos _ (by simp [heq]),
          List.find?_cons_of_pos _ (by simp [heq])]
      · rw [List.find?_cons_of_neg _ (by simp [heq]),
          List.find?_cons_of_neg _ (by simp [heq])]
        exact ih

theorem fs_lookup_set_ne (fs : FS) (p q : String) (c : List Char) (t : Nat)
    (h : ¬ q = p) : fs_lookup (fs_set fs p c t) q = fs_lookup fs q := by
  simp only [fs_lookup, fs_set, List.find?_append, find_fs_erase_ne fs p q h]
  have hone : List.find? (fun e => decide (e.path = q)) [(⟨p, c, t⟩ : FileEnt)] = none := by
    simp only [List.find?]
    have : ¬ ((⟨p, c, t⟩ : FileEnt).path = q) := fun hc => h hc.symm
    simp [this]
  rw [hone]
  cases fs.find? (fun e => decide (e.path = q)) <;> rfl

/-- Inserting into a most-recent-first list permutes pushing on front. -/
theorem insert_desc_perm (e : FileEnt) (l : List FileEnt) :
    (insert_desc e l).Perm (e :: l) := by
  induction l with
  | nil => exact List.Perm.refl _
  | cons x xs ih =>
    rw [insert_desc]
    by_cases h : x.mtime ≤ e.mtime
    · rw [if_pos h]
    · rw [if_neg h]
      exact (ih.cons x).trans (List.Perm.swap e x xs)

/-- The sort of `cleanup_old_files` permutes its input. -/
theorem sort_desc_perm (l : List FileEnt) : (sort_desc l).Perm l := by
  induction l with
  | nil => exact List.Perm.refl _
  | cons x xs ih =>
    exact (insert_desc_perm x (sort_desc xs)).trans (ih.cons x)

/-- With `max_files ≥ 1` and enough fuel, the deletion loop keeps
exactly the first `min length (max_files - 1)` entries of the sorted
vector — it pops from the tail (the oldest) until fewer than
`max_files` remain. -/
theorem cleanup_loop_eq_take (m : Nat) (hm : 1 ≤ m) :
    ∀ fuel l, l.length < fuel →
      cleanup_loop m fuel l = l.take (min l.length (m - 1)) := by
  intro fuel
  induction fuel with
  | zero => intro l h; omega
  | succ fuel ih =>
    intro l h
    rw [cleanup_loop]
    by_cases hc : m ≤ l.length
    · rw [if_pos hc]
      have hlen : l.dropLast.length < fuel := by
        rw [List.length_dropLast]; omega
      rw [ih l.dropLast hlen, List.length_dropLast, List.dropLast_eq_take,
        List.take_take]
      congr 1
      omega
    · rw [if_neg hc]
      have hmin : min l.length (m - 1) = l.length := by omega
      rw [hmin, List.take_length]

/-- The accepted, rotation-triggering path of `write` (with the reopen
succeeding): rotate, truncate, then append the formatted bytes to the
fresh empty file. -/
theorem write_rotation_path (s : RSink) (fs : FS) (ctx : LogContext)
    (now : Nat) (ts : String) (nt : Nat)
    (hlog : should_log ctx.level s.level_ = true)
    (hrot : should_rotate_now s (s.formatter_ ctx).length now = true) :
    RSink.write s fs ctx now ts true nt =
      Except.ok ({ s with
          current_size_ := 0 + (s.formatter_ ctx).length,
          next_rotation_time_ := if s.strategy_ = RotationStrategy.Size
            then s.next_rotation_time_ else nt },
        fs_set (fs_set (cleanup_old_files
            (if fs_exists fs s.base_filename_ then
              fs_rename fs s.base_filename_ (generate_rotated_filename s ts) else fs)
            s.base_filename_ s.max_files_) s.base_filename_ [] now)
          s.base_filename_ ([] ++ s.formatter_ ctx) now) := by
  simp only [RSink.write, hlog, if_true, hrot, rotate_files]
  rw [fs_append, fs_lookup_set]

/-- The accepted, non-rotating path of `write`: append the formatted
bytes and add their length to `current_size_`. -/
theorem write_plain_path (s : RSink) (fs : FS) (ctx : LogContext)
    (now : Nat) (ts : String) (co : Bool) (nt : Nat)
    (hlog : should_log ctx.level s.level_ = true)
    (hrot : should_rotate_now s (s.formatter_ ctx).length now = false) :
    RSink.write s fs ctx now ts co nt =
      Except.ok ({ s with current_size_ := s.current_size_ + (s.formatter_ ctx).length },
        fs_append fs s.base_filename_ (s.formatter_ ctx) now) := by
  simp [RSink.write, hlog, hrot]

/-! ### Claim theorems -/

/-- C9: a record whose level is strictly below the sink's minimum is
rejected by `write` with no I/O and no state change — the result is
`ok` with the sink and the file system both exactly as before, so no
formatting, rotation check, append, or update of `current_size_` /
`next_rotation_time_` happens; moreover `should_log` accepts a record
iff its level is `>=` the minimum, under the order
Debug < Info < Warning < Error < Fatal. -/
theorem write_below_min_level_is_noop (s : RSink) (fs : FS) (ctx : LogContext)
    (now : Nat) (ts : String) (co : Bool) (nt : Nat)
    (h : ctx.level.toNat < s.level_.toNat) :
    RSink.write s fs ctx now ts co nt = Except.ok (s, fs) ∧
    (∀ a b : Level, should_log a b = true ↔ b.toNat ≤ a.toNat) ∧
    Level.Debug.toNat < Level.Info.toNat ∧ Level.Info.toNat < Level.Warning.toNat ∧
    Level.Warning.toNat < Level.Error.toNat ∧ Level.Error.toNat < Level.Fatal.toNat := by
  refine ⟨?_, ?_, by decide, by decide, by decide, by decide⟩
  · have hsl : should_log ctx.level s.level_ = false := by
      simp only [should_log, decide_eq_false_iff_not]
      omega
    simp [RSink.write, hsl]
  · intro a b
    simp [should_log]

/-- Witness for C9 at a concrete input: a Debug record against a
Warning-level sink is a no-op. -/
theorem write_below_min_level_is_noop_witness :
    (demo_ctx Level.Debug "x").level.toNat <
        ({ app_sink 50 with level_ := Level.Warning } : RSink).level_.toNat ∧
    RSink.write { app_sink 50 with level_ := Level.Warning } app_fs
        (demo_ctx Level.Debug "x") 3 "TS" true 0 =
      Except.ok ({ app_sink 50 with level_ := Level.Warning }, app_fs) :=
  ⟨by decide,
   (write_below_min_level_is_noop { app_sink 50 with level_ := Level.Warning }
      app_fs (demo_ctx Level.Debug "x") 3 "TS" true 0 (by decide)).1⟩

/-- C10: `add_sink` returns the index of the sink just added (so
`get_sink` at that index yields it back), `get_sink i` returns the
`i`-th added sink for every `i` below the count, and returns `none`
(the null pointer), raising no error, for every `i` at or above the
count. -/
theorem add_sink_get_sink_spec {α : Type} (lg : LoggerState α) (s : α) :
    (add_sink lg s).2 = lg.sinks_.length ∧
    get_sink (add_sink lg s).1 (add_sink lg s).2 = some s ∧
    (∀ i (h : i < lg.sinks_.length), get_sink lg i = some (lg.sinks_.get ⟨i, h⟩)) ∧
    (∀ i, lg.sinks_.length ≤ i → get_sink lg i = none) := by
  refine ⟨by simp [add_sink], ?_, ?_, ?_⟩
  · simp [add_sink, get_sink]
  · intro i h
    simp [get_sink, h]
  · intro i h
    have : ¬ i < lg.sinks_.length := by omega
    simp [get_sink, this]

/-- Witness for C10 at a concrete input: adding a sink to a one-element
registry returns index 1 and `get_sink` behaves as stated. -/
theorem add_sink_get_sink_spec_witness :
    (add_sink (⟨[10], Level.Debug⟩ : LoggerState Nat) 20).2 = 1 ∧
    get_sink (add_sink (⟨[10], Level.Debug⟩ : LoggerState Nat) 20).1
        (add_sink (⟨[10], Level.Debug⟩ : LoggerState Nat) 20).2 = some 20 ∧
    get_sink (⟨[10], Level.Debug⟩ : LoggerState Nat) 7 = none :=
  ⟨(add_sink_get_sink_spec (⟨[10], Level.Debug⟩ : LoggerState Nat) 20).1,
   (add_sink_get_sink_spec (⟨[10], Level.Debug⟩ : LoggerState Nat) 20).2.1,
   (add_sink_get_sink_spec (⟨[10], Level.Debug⟩ : LoggerState Nat) 20).2.2.2 7
     (by decide)⟩

/-- C8: when rotation is triggered and the fresh file at
`base_filename_` cannot be opened after the old handle is closed and
renamed, `rotate_files` throws and the error propagates out of `write`
(the result is `error`, not a silently successful `ok`). -/
theorem rotation_reopen_failure_propagates (s : RSink) (fs : FS) (ctx : LogContext)
    (now : Nat) (ts : String) (nt : Nat)
    (hlog : should_log ctx.level s.level_ = true)
    (hrot : should_rotate_now s (s.formatter_ ctx).length now = true) :
    RSink.write s fs ctx now ts false nt =
      Except.error ("Failed to open new log file after rotation: " ++ s.base_filename_) := by
  simp [RSink.write, hlog, hrot, rotate_files]

/-- Witness for C8 at a concrete input: a sink whose size limit is
already exceeded, with the reopen refused, propagates the error. -/
theorem rotation_reopen_failure_propagates_witness :
    should_log (demo_ctx Level.Info "x").level (app_sink 0).level_ = true ∧
    should_rotate_now (app_sink 0)
        ((app_sink 0).formatter_ (demo_ctx Level.Info "x")).length 3 = true ∧
    RSink.write (app_sink 0) app_fs (demo_ctx Level.Info "x") 3 "TS" false 0 =
      Except.error ("Failed to open new log file after rotation: " ++ "app.log") :=
  ⟨by decide, by decide,
   rotation_reopen_failure_propagates (app_sink 0) app_fs (demo_ctx Level.Info "x")
     3 "TS" 0 (by decide) (by decide)⟩

/-- C2: for the SizeBased strategy, `write` rotates before appending iff
`current_size_ + pending byte length > max_size_`; when it rotates the
fresh active file receives exactly the pending write (so the rotated-away
file may undershoot the limit and the overflowing write lands in the new
file), and when it does not rotate the pending write is appended to the
existing content. -/
theorem size_based_rotation_decision (s : RSink) (fs : FS) (ctx : LogContext)
    (now : Nat) (ts : String) (nt : Nat)
    (hstrat : s.strategy_ = RotationStrategy.Size)
    (hlog : should_log ctx.level s.level_ = true) :
    (should_rotate_now s (s.formatter_ ctx).length now = true ↔
      s.max_size_ < s.current_size_ + (s.formatter_ ctx).length) ∧
    (s.max_size_ < s.current_size_ + (s.formatter_ ctx).length →
      ∀ s2 fs2, RSink.write s fs ctx now ts true nt = Except.ok (s2, fs2) →
        fs_lookup fs2 s.base_filename_ = some (s.formatter_ ctx) ∧
        s2.current_size_ = (s.formatter_ ctx).length) ∧
    (¬ s.max_size_ < s.current_size_ + (s.formatter_ ctx).length →
      RSink.write s fs ctx now ts true nt =
        Except.ok ({ s with current_size_ := s.current_size_ + (s.formatter_ ctx).length },
          fs_append fs s.base_filename_ (s.formatter_ ctx) now)) := by
  have hdec : should_rotate_now s (s.formatter_ ctx).length now =
      decide (s.max_size_ < s.current_size_ + (s.formatter_ ctx).length) := by
    simp [should_rotate_now, hstrat]
  refine ⟨by simp [hdec], ?_, ?_⟩
  · intro hover s2 fs2 hw
    have hrot : should_rotate_now s (s.formatter_ ctx).length now = true := by
      simp [hdec, hover]
    simp only [RSink.write, hlog, if_true, hrot, rotate_files] at hw
    set fscl := fs_set (cleanup_old_files
      (if fs_exists fs s.base_filename_ then
        fs_rename fs s.base_filename_ (generate_rotated_filename s ts) else fs)
      s.base_filename_ s.max_files_) s.base_filename_ [] now with hfscl
    have hlk : fs_lookup fscl s.base_filename_ = some [] := by
      rw [hfscl]; exact fs_lookup_set _ _ _ _
    rw [fs_append, hlk] at hw
    cases hw
    constructor
    · simp [fs_lookup_set]
    · simp
  · intro hunder
    have hrot : should_rotate_now s (s.formatter_ ctx).length now = false := by
      simp [hdec, hunder]
    simp [RSink.write, hlog, hrot]

/-- Witness for C2 at a concrete input: a 50-byte-limit sink holding 48
bytes rotates on a 12-byte write and the fresh file receives exactly
those 12 bytes; the same write against an empty counter appends. -/
theorem size_based_rotation_decision_witness :
    ({ app_sink 50 with current_size_ := 48 } : RSink).strategy_ = RotationStrategy.Size ∧
    should_log (demo_ctx Level.Info "hello wrld1").level (app_sink 50).level_ = true ∧
    (50 : Nat) < 48 + (((app_sink 50).formatter_ (demo_ctx Level.Info "hello wrld1")).length) ∧
    (should_rotate_now { app_sink 50 with current_size_ := 48 }
        (((app_sink 50).formatter_ (demo_ctx Level.Info "hello wrld1")).length) 9 = true) :=
  ⟨rfl, by decide, by decide,
   ((size_based_rotation_decision { app_sink 50 with current_size_ := 48 } app_fs
      (demo_ctx Level.Info "hello wrld1") 9 "TS" 0 rfl (by decide)).1).mpr (by decide)⟩

/-- C6: `PatternFormatter::format` substitutes `%t` with the timestamp,
`%l` with the level name, `%f` with the file name, `%n` with the line
number, `%d` with the thread id, `%m` with the message, `%%` with one
literal percent; any other `%<char>` is left unchanged including the
`%`; and for every pattern the result is the substituted pattern with
exactly one newline appended. -/
theorem pattern_formatter_substitution (ctx : LogContext) (rest : List Char)
    (c : Char) (hc : placeholder_replacement ctx c = none) :
    pattern_subst ctx ('%' :: 't' :: rest) = ctx.time_str ++ pattern_subst ctx rest ∧
    pattern_subst ctx ('%' :: 'l' :: rest) =
      get_level_string ctx.level ++ pattern_subst ctx rest ∧
    pattern_subst ctx ('%' :: 'f' :: rest) = ctx.file_name ++ pattern_subst ctx rest ∧
    pattern_subst ctx ('%' :: 'n' :: rest) =
      (toString ctx.line).data ++ pattern_subst ctx rest ∧
    pattern_subst ctx ('%' :: 'd' :: rest) = ctx.thread_str ++ pattern_subst ctx rest ∧
    pattern_subst ctx ('%' :: 'm' :: rest) = ctx.message ++ pattern_subst ctx rest ∧
    pattern_subst ctx ('%' :: '%' :: rest) = '%' :: pattern_subst ctx rest ∧
    pattern_subst ctx ('%' :: c :: rest) = '%' :: c :: pattern_subst ctx rest ∧
    (∀ p, PatternFormatter.format p ctx = pattern_subst ctx p ++ ['\n']) := by
  have hcp : ¬ c = '%' := by
    intro h
    rw [h] at hc
    exact Option.noConfusion hc
  have hstep : pattern_subst ctx (c :: rest) = c :: pattern_subst ctx rest := by
    cases rest <;> simp [pattern_subst, hcp]
  refine ⟨rfl, rfl, rfl, rfl, rfl, rfl, rfl, ?_, fun p => rfl⟩
  simp only [pattern_subst, hc]
  simp [hstep]

/-- Witness for C6 at a concrete input: the substitutions on a concrete
record, with `'x'` as the unrecognized specifier. -/
theorem pattern_formatter_substitution_witness :
    placeholder_replacement (demo_ctx Level.Info "hi") 'x' = none ∧
    pattern_subst (demo_ctx Level.Info "hi") ('%' :: 'm' :: ['!']) =
      "hi".data ++ pattern_subst (demo_ctx Level.Info "hi") ['!'] ∧
    pattern_subst (demo_ctx Level.Info "hi") ('%' :: 'x' :: ['!']) =
      '%' :: 'x' :: pattern_subst (demo_ctx Level.Info "hi") ['!'] ∧
    PatternFormatter.format "%l".data (demo_ctx Level.Info "hi") =
      pattern_subst (demo_ctx Level.Info "hi") "%l".data ++ ['\n'] :=
  ⟨rfl,
   (pattern_formatter_substitution (demo_ctx Level.Info "hi") ['!'] 'x' rfl).2.2.2.2.2.1,
   (pattern_formatter_substitution (demo_ctx Level.Info "hi") ['!'] 'x' rfl).2.2.2.2.2.2.2.1,
   (pattern_formatter_substitution (demo_ctx Level.Info "hi") ['!'] 'x' rfl).2.2.2.2.2.2.2.2
     "%l".data⟩

/-- C4: on a size-rotating sink with `max_size_bytes = 50` starting from
an empty file, five writes each formatting to exactly 12 bytes (free of
ANSI escapes, so stripped length = formatted length = 12) trigger no
rotation in the first four writes (48 ≤ 50) and exactly one at the
fifth (60 > 50): the single backup `app.log.1` holds exactly the 48
bytes of the first four writes and the active file exactly the 12 bytes
of the final write. -/
theorem size_rotation_end_to_end :
    (["hello wrld1", "hello wrld2", "hello wrld3", "hello wrld4", "hello wrld5"].map
        (fun m => ((app_sink 50).formatter_ (demo_ctx Level.Info m)).length)
      = [12, 12, 12, 12, 12]) ∧
    (["hello wrld1", "hello wrld2", "hello wrld3", "hello wrld4", "hello wrld5"].map
        (fun m => color.strip_color_codes ((app_sink 50).formatter_ (demo_ctx Level.Info m)))
      = ["hello wrld1", "hello wrld2", "hello wrld3", "hello wrld4", "hello wrld5"].map
        (fun m => (app_sink 50).formatter_ (demo_ctx Level.Info m))) ∧
    result_file c4_after4 "app.log.1" = none ∧
    result_file c4_after4 "app.log" =
      some "hello wrld1\nhello wrld2\nhello wrld3\nhello wrld4\n".data ∧
    result_file c4_after5 "app.log.1" =
      some "hello wrld1\nhello wrld2\nhello wrld3\nhello wrld4\n".data ∧
    "hello wrld1\nhello wrld2\nhello wrld3\nhello wrld4\n".data.length = 48 ∧
    result_file c4_after5 "app.log" = some "hello wrld5\n".data ∧
    "hello wrld5\n".data.length = 12 ∧
    result_size c4_after5 = some 12 := by
  exact ⟨by decide, by decide, by decide, by decide, by decide, by decide, by decide,
    by decide, by decide⟩

/-- C7 (bug demonstration): the size-based rotated filename is always
`base_path + ".1"` whatever the state or clock, so the second rotation
renames onto the existing `app.log.1`, replacing the first backup
instead of producing `app.log.2`: after two rotations only the most
recent backup survives (`msg-one` is lost) and no `app.log.2` exists. -/
theorem size_rotation_reuses_suffix_one :
    generate_rotated_filename (app_sink 10) "20240101-000000" = "app.log.1" ∧
    generate_rotated_filename (app_sink 10) "20991231-235959" = "app.log.1" ∧
    result_file c7_after2 "app.log.1" = some "msg-one\n".data ∧
    result_file c7_after3 "app.log.1" = some "msg-two\n".data ∧
    result_file c7_after3 "app.log.2" = none ∧
    result_file c7_after3 "app.log" = some "msg-tri\n".data := by
  exact ⟨by decide, by decide, by decide, by decide, by decide, by decide⟩

/-- C1 counterexample: a record accepted by the default-formatter
rotating sink persists its formatted bytes with the ANSI escape
sequences still present — the stored file contains ESC bytes and
differs from its stripped form — and the size used for the rotation
decision is the unstripped byte length.  This refutes the claim that
the escapes are removed before measuring and before persisting. -/
theorem ansi_escapes_reach_disk :
    result_file (RSink.write color_sink color_fs c1_ctx 1 "TS" true 0) "color.log"
      = some c1_fmt ∧
    c1_fmt.contains '\x1b' = true ∧
    ¬ color.strip_color_codes c1_fmt = c1_fmt ∧
    result_size (RSink.write color_sink color_fs c1_ctx 1 "TS" true 0)
      = some c1_fmt.length ∧
    ¬ (color.strip_color_codes c1_fmt).length = c1_fmt.length := by
  exact ⟨by decide, by decide, by decide, by decide, by decide⟩

/-- C1 (amended): `RotatingFileSink::write` performs no stripping: the
byte length used in the size-based rotation decision is the full
formatted length (escapes included) and the bytes appended to the file
are the formatted bytes unchanged, so files contain ANSI escapes
whenever the installed formatter emits them. -/
theorem write_appends_unstripped_bytes (s : RSink) (fs : FS) (ctx : LogContext)
    (now : Nat) (ts : String) (nt : Nat) (old : List Char)
    (hlog : should_log ctx.level s.level_ = true)
    (hrot : should_rotate_now s (s.formatter_ ctx).length now = false)
    (hold : fs_lookup fs s.base_filename_ = some old) :
    RSink.write s fs ctx now ts true nt =
      Except.ok ({ s with current_size_ := s.current_size_ + (s.formatter_ ctx).length },
        fs_set fs s.base_filename_ (old ++ s.formatter_ ctx) now) := by
  rw [write_plain_path s fs ctx now ts true nt hlog hrot]
  rw [fs_append, hold]

/-- Witness for the amended C1 at a concrete input: the freshly
constructed `color.log` sink appends the colored formatted bytes of a
record as-is. -/
theorem write_appends_unstripped_bytes_witness :
    should_log c1_ctx.level color_sink.level_ = true ∧
    should_rotate_now color_sink (color_sink.formatter_ c1_ctx).length 2 = false ∧
    fs_lookup color_fs "color.log" = some [] ∧
    RSink.write color_sink color_fs c1_ctx 2 "TS" true 0 =
      Except.ok ({ color_sink with
          current_size_ := color_sink.current_size_ + (color_sink.formatter_ c1_ctx).length },
        fs_set color_fs "color.log" ([] ++ color_sink.formatter_ c1_ctx) 2) :=
  ⟨by decide, by decide, by decide,
   write_appends_unstripped_bytes color_sink color_fs c1_ctx 2 "TS" 0 []
     (by decide) (by decide) (by decide)⟩

/-- C5 counterexample: after one accepted write of a colored record the
bytes appended to the active file (and the matching `current_size_`)
equal the formatted length, which differs from the stripped formatted
length — refuting the claim that the appended bytes equal the sum of
stripped lengths. -/
theorem appended_bytes_differ_from_stripped_sum :
    result_file c5_res "file.log" = some c5_fmt ∧
    result_size c5_res = some c5_fmt.length ∧
    ¬ (color.strip_color_codes c5_fmt).length = c5_fmt.length := by
  exact ⟨by decide, by decide, by decide⟩

/-- C5 (amended): `current_size_` tracks the active file exactly, in
units of formatted (unstripped) bytes: if `current_size_` equals the
active file's size before a write, then after any successful write it
still equals it, and on the accepted non-rotating path the new content
is the old content with the formatted bytes appended (so the bytes
appended since the last rotation are the concatenation — hence the sum
of lengths — of the formatted outputs, not of their stripped forms). -/
theorem current_size_tracks_file (s : RSink) (fs : FS) (ctx : LogContext)
    (now : Nat) (ts : String) (co : Bool) (nt : Nat) (old : List Char)
    (hold : fs_lookup fs s.base_filename_ = some old)
    (hsz : s.current_size_ = old.length) :
    ∀ s2 fs2, RSink.write s fs ctx now ts co nt = Except.ok (s2, fs2) →
      s2.base_filename_ = s.base_filename_ ∧
      ∃ c, fs_lookup fs2 s2.base_filename_ = some c ∧ s2.current_size_ = c.length ∧
        (should_log ctx.level s.level_ = true →
          should_rotate_now s (s.formatter_ ctx).length now = false →
          c = old ++ s.formatter_ ctx) := by
  intro s2 fs2 hw
  by_cases hlog : should_log ctx.level s.level_ = true
  · by_cases hrot : should_rotate_now s (s.formatter_ ctx).length now = true
    · cases co with
      | false => simp [RSink.write, hlog, hrot, rotate_files] at hw
      | true =>
        rw [write_rotation_path s fs ctx now ts nt hlog hrot] at hw
        cases hw
        refine ⟨rfl, [] ++ s.formatter_ ctx, fs_lookup_set _ _ _ _, by simp,
          fun _ hr => absurd hrot (by simp [hr])⟩
    · have hrotf : should_rotate_now s (s.formatter_ ctx).length now = false := by
        simpa using hrot
      rw [write_plain_path s fs ctx now ts co nt hlog hrotf] at hw
      cases hw
      refine ⟨rfl, old ++ s.formatter_ ctx, ?_, by simp [hsz], fun _ _ => rfl⟩
      rw [fs_append, hold]
      exact fs_lookup_set _ _ _ _
  · have hl : should_log ctx.level s.level_ = false := by
      simpa using hlog
    simp only [RSink.write, hl, Bool.false_eq_true, if_false] at hw
    cases hw
    exact ⟨rfl, old, hold, hsz, fun hcon _ => absurd hcon (by simp [hl])⟩

/-- Witness for the amended C5 at a concrete input: the invariant holds
across one colored write on the freshly constructed `file.log` sink. -/
theorem current_size_tracks_file_witness :
    fs_lookup file_fs "file.log" = some [] ∧
    file_sink.current_size_ = ([] : List Char).length ∧
    ((res_sink c5_res file_sink).base_filename_ = file_sink.base_filename_ ∧
      ∃ c, fs_lookup (res_fs c5_res) (res_sink c5_res file_sink).base_filename_ = some c ∧
        (res_sink c5_res file_sink).current_size_ = c.length ∧
        (should_log c5_ctx.level file_sink.level_ = true →
          should_rotate_now file_sink (file_sink.formatter_ c5_ctx).length 1 = false →
          c = [] ++ file_sink.formatter_ c5_ctx)) :=
  ⟨by decide, rfl,
   current_size_tracks_file file_sink file_fs c5_ctx 1 "TS" true 0 []
     (by decide) rfl (res_sink c5_res file_sink) (res_fs c5_res) rfl⟩

/-- C3: after any run of `cleanup_old_files` with `max_retained_files ≥ 1`,
the number of files in the base file's directory whose name starts with
the base file's stem and is not the base file itself is at most
`max_retained_files - 1`; and the deletion loop keeps exactly the
most-recent `min count (max_retained_files - 1)` candidates of the
most-recent-first sorted vector, deleting oldest-first while the count
is `≥ max_retained_files`. -/
theorem cleanup_retention_bound (fs : FS) (baseName : String) (max_files : Nat)
    (hm : 1 ≤ max_files) :
    ((cleanup_old_files fs baseName max_files).filter
        (cleanup_candidate (path_stem baseName) baseName)).length ≤ max_files - 1 ∧
    (∀ l : List FileEnt, cleanup_loop max_files (l.length + 1) l =
      l.take (min l.length (max_files - 1))) := by
  refine ⟨?_, fun l => cleanup_loop_eq_take max_files hm (l.length + 1) l
    (Nat.lt_succ_self _)⟩
  simp only [cleanup_old_files]
  rw [cleanup_loop_eq_take max_files hm _ _ (Nat.lt_succ_self _)]
  generalize hA : fs.filter (cleanup_candidate (path_stem baseName) baseName) = A
  have hperm : (sort_desc A).Perm A := sort_desc_perm A
  generalize hS : sort_desc A = sorted at hperm ⊢
  have hkle : min sorted.length (max_files - 1) ≤ sorted.length := Nat.min_le_left _ _
  have hklen : (sorted.take (min sorted.length (max_files - 1))).length =
      min sorted.length (max_files - 1) := by
    rw [List.length_take]
    omega
  rw [hklen]
  generalize hk : min sorted.length (max_files - 1) = k at *
  -- the per-entry removal test
  have hcomm : ∀ q : FileEnt → Bool,
      (fs.filter q).filter (cleanup_candidate (path_stem baseName) baseName) =
        (fs.filter (cleanup_candidate (path_stem baseName) baseName)).filter q :=
    fun q => List.filter_comm (cleanup_candidate (path_stem baseName) baseName) q fs
  rw [hcomm, hA]
  have hqperm := (hperm.filter
    (fun e => ¬ (((sorted.drop k).map (fun x => x.path)).contains e.path))).symm
  rw [hqperm.length_eq]
  have hdrops : (sorted.drop k).filter
      (fun e => ¬ (((sorted.drop k).map (fun x => x.path)).contains e.path)) = [] := by
    apply List.filter_eq_nil_iff.mpr
    intro e he
    simp only [decide_not, Bool.not_eq_true, decide_eq_false_iff_not, not_not]
    have : e.path ∈ (sorted.drop k).map (fun x => x.path) :=
      List.mem_map_of_mem _ he
    simpa using this
  calc (sorted.filter
          (fun e => ¬ (((sorted.drop k).map (fun x => x.path)).contains e.path))).length
      = ((sorted.take k).filter
            (fun e => ¬ (((sorted.drop k).map (fun x => x.path)).contains e.path)) ++
          (sorted.drop k).filter
            (fun e => ¬ (((sorted.drop k).map (fun x => x.path)).contains e.path))).length := by
        rw [← List.filter_append, List.take_append_drop]
    _ = ((sorted.take k).filter
          (fun e => ¬ (((sorted.drop k).map (fun x => x.path)).contains e.path))).length := by
        rw [hdrops, List.append_nil]
    _ ≤ (sorted.take k).length := List.length_filter_le _ _
    _ ≤ k := by rw [List.length_take]; omega
    _ ≤ max_files - 1 := by omega

/-- Witness for C3 at a concrete input: a directory holding the base
file, three backups and an unrelated file, cleaned with
`max_retained_files = 2`, retains at most one backup. -/
theorem cleanup_retention_bound_witness :
    1 ≤ 2 ∧
    ((cleanup_old_files demo_dir "app.log" 2).filter
        (cleanup_candidate (path_stem "app.log") "app.log")).length ≤ 2 - 1 :=
  ⟨by decide, (cleanup_retention_bound demo_dir "app.log" 2 (by decide)).1⟩

end CppLog
